import Mathlib

/-!
Verification of the core cycle-calculation logic of the
hackher-calender-prototype repository.

The repository has two source files, `app.py` (the rich deployment variant)
and `main.py` (the minimal variant).  Their core logic is embedded here as
executable Lean definitions:

* calendar dates are modelled as integers (a day number); Python's
  `date + timedelta(days = k)` becomes `+ k` and `(d2 - d1).days` becomes
  `d2 - d1`;
* Python floats (the raw bleed/cycle averages) are modelled as rationals,
  with `math.floor` / `math.ceil` as `Int.floor` / `Int.ceil`;
* `raise ValueError(msg)` becomes `Except.error msg`;
* the in-place `list.sort(key = lambda x: x['start'])` of `process_history`
  becomes `List.mergeSort` (both are stable sorts); the post-call state of
  the caller's list is returned as the first component of the result pair.

Definitions shared by both files (they contain identical code for them) are
declared once; the variants that differ (`process_history`'s bleed rounding,
`predict`'s input rounding and fertile-window logic) live in namespaces
`App` (for `app.py`) and `MainSrc` (for `main.py`).
-/

deriving instance DecidableEq for Except

namespace Cycle

/-- `app.py`, `apply_custom_rounding` (lines 10-20): round a fractional
day-average down, unless its fractional part is at least 0.6, in which case
round up. -/
def apply_custom_rounding (value : ℚ) : ℤ :=
  let decimal_part := value - ⌊value⌋
  if decimal_part ≥ (0.6 : ℚ) then ⌈value⌉ else ⌊value⌋

/-- The floor rounding policy used by `main.py` (line 62,
`bleed = math.floor(raw_bleed)`): always round the fractional average
down. -/
def floor_rounding (value : ℚ) : ℤ := ⌊value⌋

/-- One historical bleed episode: `{'start': ..., 'end': ...}` in the
source. -/
structure BleedInterval where
  start : ℤ
  endDate : ℤ
deriving DecidableEq, Repr

/-- Inclusive duration of a bleed interval:
`(end_date - start_date).days + 1`. -/
def duration_of (e : BleedInterval) : ℤ := e.endDate - e.start + 1

/-- An interval passes `validate_single_entry` exactly when its inclusive
duration lies in `[3, 10]`. -/
def valid_entry (e : BleedInterval) : Prop :=
  3 ≤ duration_of e ∧ duration_of e ≤ 10

instance (e : BleedInterval) : Decidable (valid_entry e) := by
  unfold valid_entry; infer_instance

/-- `CycleHistoryCalculator.validate_single_entry`
(`app.py` lines 27-33, identical in `main.py` lines 11-17). -/
def validate_single_entry (start_date end_date : ℤ) : Except String ℤ :=
  let duration := end_date - start_date + 1
  if duration < 3 then
    Except.error ("Bleed duration " ++ toString duration ++
      " days is too short (Min 3 days).")
  else if duration > 10 then
    Except.error ("Bleed duration " ++ toString duration ++
      " days is too long (Max 10 days).")
  else
    Except.ok duration

/-- The validation loop of `process_history` (`app.py` lines 39-42): validate
every entry in order, propagating the first failure. -/
def validate_entries : List BleedInterval → Except String (List ℤ)
  | [] => Except.ok []
  | e :: rest =>
    match validate_single_entry e.start e.endDate with
    | Except.error m => Except.error m
    | Except.ok d =>
      match validate_entries rest with
      | Except.error m => Except.error m
      | Except.ok ds => Except.ok (d :: ds)

/-- Gaps between consecutive start dates of a list of start days
(the loop of `app.py` lines 44-47 reads only the `'start'` fields). -/
def gaps_of_starts : List ℤ → List ℤ
  | a :: b :: rest => (b - a) :: gaps_of_starts (b :: rest)
  | _ => []

/-- `cycle_gaps` of `process_history` (`app.py` lines 43-47): for each
adjacent pair of (sorted) intervals, the difference of their start dates. -/
def compute_cycle_gaps (l : List BleedInterval) : List ℤ :=
  gaps_of_starts (l.map BleedInterval.start)

/-- `history_data.sort(key=lambda x: x['start'])` (`app.py` line 38):
a stable in-place sort by start date. -/
def sort_history (l : List BleedInterval) : List BleedInterval :=
  l.mergeSort (fun a b => decide (a.start ≤ b.start))

/-- The record returned by `process_history` (`app.py` lines 63-68). -/
structure CycleAverageResult where
  bleed_avg : ℤ
  cycle_avg : ℤ
  total_cycles : ℕ
  cycle_gaps : List ℤ
deriving DecidableEq, Repr

namespace App

/-- `CycleHistoryCalculator.process_history` of `app.py` (lines 35-68).
The first component of the result is the caller's list as it stands after
the call (the source sorts it in place); the second is the returned value:
`none` for an empty history, an error if any entry fails validation, and
the averages record otherwise. -/
def process_history (history_data : List BleedInterval) :
    List BleedInterval × Except String (Option CycleAverageResult) :=
  if history_data.isEmpty then (history_data, Except.ok none)
  else
    let sorted := sort_history history_data
    match validate_entries sorted with
    | Except.error m => (sorted, Except.error m)
    | Except.ok bleed_durations =>
      let cycle_gaps := compute_cycle_gaps sorted
      let final_bleed_avg :=
        if bleed_durations.length = 1 then bleed_durations.headI
        else apply_custom_rounding
          ((bleed_durations.sum : ℚ) / (bleed_durations.length : ℚ))
      let final_cycle_avg :=
        if cycle_gaps.isEmpty then (28 : ℤ)
        else ⌈((cycle_gaps.sum : ℚ) / (cycle_gaps.length : ℚ))⌉
      (sorted, Except.ok (some
        { bleed_avg := final_bleed_avg
          cycle_avg := final_cycle_avg
          total_cycles := sorted.length
          cycle_gaps := cycle_gaps }))

end App

namespace MainSrc

/-- `CycleHistoryCalculator.process_history` of `main.py` (lines 19-52):
identical to the `app.py` version except that a multi-entry bleed average
is rounded with `math.floor` instead of `apply_custom_rounding`. -/
def process_history (history_data : List BleedInterval) :
    List BleedInterval × Except String (Option CycleAverageResult) :=
  if history_data.isEmpty then (history_data, Except.ok none)
  else
    let sorted := sort_history history_data
    match validate_entries sorted with
    | Except.error m => (sorted, Except.error m)
    | Except.ok bleed_durations =>
      let cycle_gaps := compute_cycle_gaps sorted
      let final_bleed_avg :=
        if bleed_durations.length = 1 then bleed_durations.headI
        else ⌊((bleed_durations.sum : ℚ) / (bleed_durations.length : ℚ))⌋
      let final_cycle_avg :=
        if cycle_gaps.isEmpty then (28 : ℤ)
        else ⌈((cycle_gaps.sum : ℚ) / (cycle_gaps.length : ℚ))⌉
      (sorted, Except.ok (some
        { bleed_avg := final_bleed_avg
          cycle_avg := final_cycle_avg
          total_cycles := sorted.length
          cycle_gaps := cycle_gaps }))

end MainSrc

/-! ## The ovulation predictor (`app.py`, `OvulationPredictor`) -/

/-- `self.CRASH_1` (`app.py` line 72). -/
def CRASH_1 : ℤ := 2

/-- `self.NURTURE` (`app.py` line 73). -/
def NURTURE : ℤ := 6

/-- `self.CRASH_2` (`app.py` line 74). -/
def CRASH_2 : ℤ := 3

/-- `max_map.get(cycle, 10)` for `max_map = {21:5, 22:6, 23:7, 24:8, 25:9}`
(`app.py` lines 88-89): the largest allowed bleed duration for a given
cycle length. -/
def max_map_get (cycle : ℤ) : ℤ :=
  if cycle = 21 then 5
  else if cycle = 22 then 6
  else if cycle = 23 then 7
  else if cycle = 24 then 8
  else if cycle = 25 then 9
  else 10

/-- One entry of the returned `timeline` list:
`{"Phase": ..., "Start": ..., "End": ..., "Days": ...}`. -/
structure Phase where
  name : String
  start : ℤ
  endDate : ℤ
  days : ℤ
deriving DecidableEq, Repr

/-- The dictionary returned by `OvulationPredictor.predict`
(`app.py` lines 191-201).  The JSON export payload (string rendering of the
same dates) is presentation and is not modelled. -/
structure PredResult where
  rounded_bleed : ℤ
  rounded_cycle : ℤ
  power_week : ℤ
  main_date : ℤ
  baby_days : List ℤ
  timeline : List Phase
  logic_used : String
  vacation_start : ℤ
  vacation_end : ℤ
deriving DecidableEq, Repr

/-- The successful tail of `OvulationPredictor.predict` (`app.py`
lines 93-201): timeline layout, vacation mode, fertile-window selection and
result assembly, computed from the start date and the already-validated
rounded bleed and cycle values. -/
def build_prediction (start_date_obj bleed cycle : ℤ) : PredResult :=
  let constants_sum := CRASH_1 + NURTURE + CRASH_2
  let power_week_duration := cycle - (bleed + constants_sum)
  let bleed_end := start_date_obj + (bleed - 1)
  let pw_start := bleed_end + 1
  let pw_end := pw_start + (power_week_duration - 1)
  let vacation_start := bleed_end - 1
  let vacation_end := pw_end
  let c1_start := pw_end + 1
  let c1_end := c1_start + (CRASH_1 - 1)
  let nur_start := c1_end + 1
  let nur_end := nur_start + (NURTURE - 1)
  let c2_start := nur_end + 1
  let c2_end := c2_start + (CRASH_2 - 1)
  let timeline : List Phase :=
    [⟨"🩸 Bleed Days", start_date_obj, bleed_end, bleed⟩,
     ⟨"⚡ Power Week", pw_start, pw_end, power_week_duration⟩,
     ⟨"📉 Crash #1", c1_start, c1_end, CRASH_1⟩,
     ⟨"🌱 Nurture", nur_start, nur_end, NURTURE⟩,
     ⟨"📉 Crash #2", c2_start, c2_end, CRASH_2⟩]
  let main_ovulation_day_num := (bleed + power_week_duration) - 2
  let main_date := start_date_obj + (main_ovulation_day_num - 1)
  if power_week_duration ≤ 5 then
    { rounded_bleed := bleed
      rounded_cycle := cycle
      power_week := power_week_duration
      main_date := main_date
      baby_days := (List.range power_week_duration.toNat).map
        (fun (i : ℕ) => pw_start + (i : ℤ))
      timeline := timeline
      logic_used := "Power Week Rule (≤ 5 Days)"
      vacation_start := vacation_start
      vacation_end := vacation_end }
  else
    let raw_baby_days := [main_date - 4, main_date - 3, main_date - 2,
      main_date - 1, main_date, main_date + 1]
    { rounded_bleed := bleed
      rounded_cycle := cycle
      power_week := power_week_duration
      main_date := main_date
      baby_days := raw_baby_days.filter (fun d => decide (d > bleed_end))
      timeline := timeline
      logic_used := "Standard Rule (Main - 4 & + 1)"
      vacation_start := vacation_start
      vacation_end := vacation_end }

namespace App

/-- `OvulationPredictor.predict` of `app.py` (lines 76-201): round the raw
inputs, run the three validations, and on success hand over to
`build_prediction`. -/
def predict (start_date_obj : ℤ) (raw_bleed raw_cycle : ℚ) :
    Except String PredResult :=
  let bleed := apply_custom_rounding raw_bleed
  let cycle := ⌈raw_cycle⌉
  if ¬ (3 ≤ bleed ∧ bleed ≤ 10) then
    Except.error ("Bleed days must be 3-10. (Rounded value: " ++
      toString bleed ++ ")")
  else if ¬ (21 ≤ cycle ∧ cycle ≤ 35) then
    Except.error ("Cycle length must be 21-35. (Rounded value: " ++
      toString cycle ++ ")")
  else
    let max_allowed := max_map_get cycle
    if bleed > max_allowed then
      Except.error ("For a " ++ toString cycle ++ "-day cycle, max bleed is "
        ++ toString max_allowed ++ ". You have " ++ toString bleed ++ ".")
    else
      Except.ok (build_prediction start_date_obj bleed cycle)

end App

/-- The inclusive list of days from `a` to `b`:
`[a, a+1, ..., b]` (empty when `b < a`). -/
def dateRange (a b : ℤ) : List ℤ :=
  (List.range (b - a + 1).toNat).map (fun (i : ℕ) => a + (i : ℤ))

/-! ## Basic lemmas about the predictor -/

/-- The custom rounding is the identity on whole numbers. -/
theorem apply_custom_rounding_intCast (n : ℤ) :
    apply_custom_rounding (n : ℚ) = n := by
  unfold apply_custom_rounding
  norm_num

/-- Inversion of a successful `predict` call: the rounded inputs satisfied
all three validations and the result is the assembled prediction. -/
theorem predict_ok_inv {s : ℤ} {rb rc : ℚ} {r : PredResult}
    (h : App.predict s rb rc = Except.ok r) :
    (3 ≤ apply_custom_rounding rb ∧ apply_custom_rounding rb ≤ 10) ∧
    (21 ≤ ⌈rc⌉ ∧ ⌈rc⌉ ≤ 35) ∧
    apply_custom_rounding rb ≤ max_map_get ⌈rc⌉ ∧
    r = build_prediction s (apply_custom_rounding rb) ⌈rc⌉ := by
  simp only [App.predict] at h
  split_ifs at h with h1 h2 h3 <;>
    first
    | exact Except.noConfusion h
    | exact ⟨h1, h2, by omega, by simpa using h.symm⟩

/-- Validated inputs always leave at least five power-week days:
the cap table is tuned so that `cycle - (bleed + 11) ≥ 5`. -/
theorem power_week_lower_bound {b c : ℤ} (hc : 21 ≤ c) (hc' : c ≤ 35)
    (hcap : b ≤ max_map_get c) : 5 ≤ c - (b + (CRASH_1 + NURTURE + CRASH_2)) := by
  unfold max_map_get at hcap
  unfold CRASH_1 NURTURE CRASH_2
  split_ifs at hcap <;> omega

/-- The prediction for start day 0, bleed 5, cycle 28 (the worked example of
the design's testable properties, with 2026-01-01 as day 0). -/
def sample_5_28 : PredResult :=
  ⟨5, 28, 12, 14, [10, 11, 12, 13, 14, 15],
   [⟨"🩸 Bleed Days", 0, 4, 5⟩, ⟨"⚡ Power Week", 5, 16, 12⟩,
    ⟨"📉 Crash #1", 17, 18, 2⟩, ⟨"🌱 Nurture", 19, 24, 6⟩,
    ⟨"📉 Crash #2", 25, 27, 3⟩],
   "Standard Rule (Main - 4 & + 1)", 3, 16⟩

theorem predict_5_28 :
    App.predict 0 ((5 : ℤ) : ℚ) ((28 : ℤ) : ℚ) = Except.ok sample_5_28 := by
  simp only [App.predict, apply_custom_rounding_intCast, Int.ceil_intCast]
  decide

/-- The prediction for start day 0, bleed 5, cycle 21: the shortest valid
cycle, whose power week has exactly 5 days. -/
def sample_5_21 : PredResult :=
  ⟨5, 21, 5, 7, [5, 6, 7, 8, 9],
   [⟨"🩸 Bleed Days", 0, 4, 5⟩, ⟨"⚡ Power Week", 5, 9, 5⟩,
    ⟨"📉 Crash #1", 10, 11, 2⟩, ⟨"🌱 Nurture", 12, 17, 6⟩,
    ⟨"📉 Crash #2", 18, 20, 3⟩],
   "Power Week Rule (≤ 5 Days)", 3, 9⟩

theorem predict_5_21 :
    App.predict 0 ((5 : ℤ) : ℚ) ((21 : ℤ) : ℚ) = Except.ok sample_5_21 := by
  simp only [App.predict, apply_custom_rounding_intCast, Int.ceil_intCast]
  decide

/-! ## Claim theorems -/

/-- C1: whenever `predict` succeeds, the returned timeline consists of
exactly the five phases Bleed, PowerWeek, Crash1, Nurture, Crash2 in that
order; the first phase starts at the start date, each later phase starts
the day after the previous one ends, each phase's inclusive length
(`end - start + 1`) equals its recorded duration, and the five durations
sum to the rounded cycle length. -/
theorem predict_timeline_five_contiguous_phases
    (s : ℤ) (rb rc : ℚ) (r : PredResult)
    (h : App.predict s rb rc = Except.ok r) :
    r.timeline.map Phase.name =
      ["🩸 Bleed Days", "⚡ Power Week", "📉 Crash #1", "🌱 Nurture",
       "📉 Crash #2"]
    ∧ r.timeline.head?.map Phase.start = some s
    ∧ List.Chain' (fun p q => q.start = p.endDate + 1) r.timeline
    ∧ (∀ p ∈ r.timeline, p.endDate - p.start + 1 = p.days)
    ∧ (r.timeline.map Phase.days).sum = r.rounded_cycle := by
  obtain ⟨hb, hc, hcap, rfl⟩ := predict_ok_inv h
  simp only [build_prediction, CRASH_1, NURTURE, CRASH_2]
  split_ifs with hpw <;>
    exact ⟨by simp, by simp, by simp [List.chain'_cons],
      by simp [List.forall_mem_cons], by simp; omega⟩

/-- C1 witness: the conclusion at start day 0, bleed 5, cycle 28. -/
theorem predict_timeline_five_contiguous_phases_witness :
    sample_5_28.timeline.map Phase.name =
      ["🩸 Bleed Days", "⚡ Power Week", "📉 Crash #1", "🌱 Nurture",
       "📉 Crash #2"]
    ∧ sample_5_28.timeline.head?.map Phase.start = some 0
    ∧ List.Chain' (fun p q => q.start = p.endDate + 1) sample_5_28.timeline
    ∧ (∀ p ∈ sample_5_28.timeline, p.endDate - p.start + 1 = p.days)
    ∧ (sample_5_28.timeline.map Phase.days).sum = sample_5_28.rounded_cycle :=
  predict_timeline_five_contiguous_phases 0 _ _ sample_5_28 predict_5_28

/-- C3: for every validated input the power week
`cycle - (bleed + 2 + 6 + 3)` lasts at least 5 days — in particular it is
never zero or negative, and every phase of the returned timeline has
positive duration. -/
theorem predict_power_week_at_least_five
    (s : ℤ) (rb rc : ℚ) (r : PredResult)
    (h : App.predict s rb rc = Except.ok r) :
    r.power_week = r.rounded_cycle - (r.rounded_bleed + (2 + 6 + 3))
    ∧ 5 ≤ r.power_week
    ∧ ∀ p ∈ r.timeline, 0 < p.days := by
  obtain ⟨hb, hc, hcap, rfl⟩ := predict_ok_inv h
  have hpw5 := power_week_lower_bound hc.1 hc.2 hcap
  simp only [CRASH_1, NURTURE, CRASH_2] at hpw5
  simp only [build_prediction, CRASH_1, NURTURE, CRASH_2]
  split_ifs with hpw <;>
    exact ⟨by simp, by simpa using hpw5,
      by simp [List.forall_mem_cons]; omega⟩

/-- C3 witness: the conclusion at start day 0, bleed 5, cycle 28. -/
theorem predict_power_week_at_least_five_witness :
    sample_5_28.power_week =
      sample_5_28.rounded_cycle - (sample_5_28.rounded_bleed + (2 + 6 + 3))
    ∧ 5 ≤ sample_5_28.power_week
    ∧ ∀ p ∈ sample_5_28.timeline, 0 < p.days :=
  predict_power_week_at_least_five 0 _ _ sample_5_28 predict_5_28

/-- C10: for every validated input the main ovulation date is cycle day
`(bleed + power_week) - 2`, which lies inside the PowerWeek phase: on or
after its start and exactly 2 days before its end. -/
theorem predict_main_date_in_power_week
    (s : ℤ) (rb rc : ℚ) (r : PredResult)
    (h : App.predict s rb rc = Except.ok r) :
    r.main_date = s + ((r.rounded_bleed + r.power_week - 2) - 1)
    ∧ ∀ p ∈ r.timeline, p.name = "⚡ Power Week" →
        p.start ≤ r.main_date ∧ r.main_date = p.endDate - 2 := by
  obtain ⟨hb, hc, hcap, rfl⟩ := predict_ok_inv h
  have hpw5 := power_week_lower_bound hc.1 hc.2 hcap
  simp only [CRASH_1, NURTURE, CRASH_2] at hpw5
  simp only [build_prediction, CRASH_1, NURTURE, CRASH_2]
  split_ifs with hpw <;>
    exact ⟨by simp, by simp [List.forall_mem_cons]; omega⟩

/-- C10 witness: the conclusion at start day 0, bleed 5, cycle 28. -/
theorem predict_main_date_in_power_week_witness :
    sample_5_28.main_date =
      0 + ((sample_5_28.rounded_bleed + sample_5_28.power_week - 2) - 1)
    ∧ ∀ p ∈ sample_5_28.timeline, p.name = "⚡ Power Week" →
        p.start ≤ sample_5_28.main_date
        ∧ sample_5_28.main_date = p.endDate - 2 :=
  predict_main_date_in_power_week 0 _ _ sample_5_28 predict_5_28

/-- C7: for every validated input with at most 5 power-week days, the
fertile window is exactly the PowerWeek phase's date range, day by day in
ascending order, with length `power_week`. -/
theorem predict_power_week_rule
    (s : ℤ) (rb rc : ℚ) (r : PredResult)
    (h : App.predict s rb rc = Except.ok r) (hpw : r.power_week ≤ 5) :
    r.baby_days.length = r.power_week.toNat
    ∧ ∀ p ∈ r.timeline, p.name = "⚡ Power Week" →
        r.baby_days = dateRange p.start p.endDate := by
  obtain ⟨hb, hc, hcap, rfl⟩ := predict_ok_inv h
  simp only [build_prediction, CRASH_1, NURTURE, CRASH_2] at hpw ⊢
  split_ifs at hpw ⊢ with h5
  · refine ⟨by simp, ?_⟩
    simp only [List.forall_mem_cons]
    refine ⟨by simp, ?_, by simp, by simp, by simp, by simp⟩
    intro _
    simp only [dateRange]
    congr 2
    omega
  · simp only at hpw
    omega

/-- C7 witness: the conclusion at start day 0, bleed 5, cycle 21
(power week of exactly 5 days). -/
theorem predict_power_week_rule_witness :
    sample_5_21.baby_days.length = sample_5_21.power_week.toNat
    ∧ ∀ p ∈ sample_5_21.timeline, p.name = "⚡ Power Week" →
        sample_5_21.baby_days = dateRange p.start p.endDate :=
  predict_power_week_rule 0 _ _ sample_5_21 predict_5_21 (by decide)

/-- C2 (amended): in the rich variant, for every validated input with more
than 5 power-week days the fertile window is the 6 candidate dates
(4 days before the main ovulation date through the day after it) with every
date on or before the Bleed phase's end date (`start + bleed - 1`) dropped;
this filtering never empties the window, because the final candidate
`main_date + 1` always lies strictly after the bleed end. -/
theorem predict_standard_rule_filters_bleed_days
    (s : ℤ) (rb rc : ℚ) (r : PredResult)
    (h : App.predict s rb rc = Except.ok r) (hpw : 5 < r.power_week) :
    r.baby_days =
      [r.main_date - 4, r.main_date - 3, r.main_date - 2, r.main_date - 1,
       r.main_date, r.main_date + 1].filter
        (fun d => decide (d > s + (r.rounded_bleed - 1)))
    ∧ (∀ p ∈ r.timeline, p.name = "🩸 Bleed Days" →
        p.endDate = s + (r.rounded_bleed - 1))
    ∧ r.baby_days ≠ [] := by
  obtain ⟨hb, hc, hcap, rfl⟩ := predict_ok_inv h
  simp only [build_prediction, CRASH_1, NURTURE, CRASH_2] at hpw ⊢
  split_ifs at hpw ⊢ with h5
  · simp only at hpw
    omega
  · refine ⟨by simp, by simp [List.forall_mem_cons], ?_⟩
    simp only [ne_eq, List.filter_eq_nil_iff, not_forall]
    refine ⟨s + (apply_custom_rounding rb +
      (⌈rc⌉ - (apply_custom_rounding rb + (2 + 6 + 3))) - 2 - 1) + 1,
      by simp, ?_⟩
    simp only [decide_eq_true_eq, not_not, gt_iff_lt]
    omega

/-- C2 witness: the amended conclusion at start day 0, bleed 5,
cycle 28. -/
theorem predict_standard_rule_filters_bleed_days_witness :
    sample_5_28.baby_days =
      [sample_5_28.main_date - 4, sample_5_28.main_date - 3,
       sample_5_28.main_date - 2, sample_5_28.main_date - 1,
       sample_5_28.main_date, sample_5_28.main_date + 1].filter
        (fun d => decide (d > 0 + (sample_5_28.rounded_bleed - 1)))
    ∧ (∀ p ∈ sample_5_28.timeline, p.name = "🩸 Bleed Days" →
        p.endDate = 0 + (sample_5_28.rounded_bleed - 1))
    ∧ sample_5_28.baby_days ≠ [] :=
  predict_standard_rule_filters_bleed_days 0 _ _ sample_5_28 predict_5_28
    (by decide)

/-- C2 counterexample: contrary to the claim, no validated input with more
than 5 power-week days produces an empty fertile window — the final
candidate date always survives the bleed-overlap filtering. -/
theorem predict_standard_rule_window_never_empty :
    ¬ ∃ (s : ℤ) (rb rc : ℚ) (r : PredResult),
        App.predict s rb rc = Except.ok r ∧ 5 < r.power_week ∧
          r.baby_days = [] := by
  rintro ⟨s, rb, rc, r, h, hpw, hnil⟩
  obtain ⟨hb, hc, hcap, rfl⟩ := predict_ok_inv h
  simp only [build_prediction, CRASH_1, NURTURE, CRASH_2] at hpw hnil
  split_ifs at hpw hnil with h5
  · simp only at hpw
    omega
  · simp only [List.filter_eq_nil_iff] at hnil
    have hlast := hnil (s + (apply_custom_rounding rb +
      (⌈rc⌉ - (apply_custom_rounding rb + (2 + 6 + 3))) - 2 - 1) + 1)
      (by simp)
    simp only [decide_eq_true_eq, gt_iff_lt, not_lt] at hlast
    simp only at hpw
    omega

/-- C6 counterexample: `predict` raising a ValidationError is not
equivalent to the bleed cap being exceeded: with raw bleed 2 and raw cycle
28 the rounded bleed (2) does not exceed the cap for cycle 28 (which is
10), yet `predict` fails — the range validation rejects it first. -/
theorem predict_error_without_cap_violation :
    (∃ msg, App.predict 0 ((2 : ℤ) : ℚ) ((28 : ℤ) : ℚ) = Except.error msg)
    ∧ apply_custom_rounding ((2 : ℤ) : ℚ) ≤ max_map_get ⌈((28 : ℤ) : ℚ)⌉ := by
  constructor
  · refine ⟨"Bleed days must be 3-10. (Rounded value: 2)", ?_⟩
    simp only [App.predict, apply_custom_rounding_intCast, Int.ceil_intCast]
    decide
  · rw [apply_custom_rounding_intCast, Int.ceil_intCast]
    decide

/-- C6 (amended): among inputs whose rounded values pass the range validation,
`predict` fails (with a ValidationError) exactly when the rounded bleed
exceeds the cap `max_map.get(cycle, 10)` for the rounded cycle length; the
cap is 5 for cycle 21, 6 for 22, 7 for 23, 8 for 24, 9 for 25 and 10 from
26 upward.  In particular bleed 6 with cycle 21 fails, with a message
reporting both values. -/
theorem predict_cap_table_validation
    (s : ℤ) (rb rc : ℚ)
    (hb : 3 ≤ apply_custom_rounding rb ∧ apply_custom_rounding rb ≤ 10)
    (hc : 21 ≤ ⌈rc⌉ ∧ ⌈rc⌉ ≤ 35) :
    ((∃ msg, App.predict s rb rc = Except.error msg) ↔
      max_map_get ⌈rc⌉ < apply_custom_rounding rb)
    ∧ max_map_get 21 = 5 ∧ max_map_get 22 = 6 ∧ max_map_get 23 = 7
    ∧ max_map_get 24 = 8 ∧ max_map_get 25 = 9
    ∧ (∀ c : ℤ, 26 ≤ c → max_map_get c = 10)
    ∧ App.predict 0 ((6 : ℤ) : ℚ) ((21 : ℤ) : ℚ) =
        Except.error "For a 21-day cycle, max bleed is 5. You have 6." := by
  refine ⟨?_, by decide, by decide, by decide, by decide, by decide, ?_, ?_⟩
  · constructor
    · rintro ⟨msg, hmsg⟩
      by_contra hcap
      push_neg at hcap
      simp only [App.predict] at hmsg
      rw [if_neg (not_not_intro hb), if_neg (not_not_intro hc),
        if_neg (by omega)] at hmsg
      exact Except.noConfusion hmsg
    · intro hcap
      have herr : App.predict s rb rc = Except.error ("For a " ++
          toString ⌈rc⌉ ++ "-day cycle, max bleed is " ++
          toString (max_map_get ⌈rc⌉) ++ ". You have " ++
          toString (apply_custom_rounding rb) ++ ".") := by
        simp only [App.predict]
        rw [if_neg (not_not_intro hb), if_neg (not_not_intro hc),
          if_pos (by omega)]
      exact ⟨_, herr⟩
  · intro c hc26
    unfold max_map_get
    split_ifs <;> omega
  · simp only [App.predict, apply_custom_rounding_intCast, Int.ceil_intCast]
    decide

/-- C6 witness: the range premises and the validation equivalence at
start day 0, raw bleed 6, raw cycle 21. -/
theorem predict_cap_table_validation_witness :
    (3 ≤ apply_custom_rounding ((6 : ℤ) : ℚ)
      ∧ apply_custom_rounding ((6 : ℤ) : ℚ) ≤ 10)
    ∧ (21 ≤ ⌈((21 : ℤ) : ℚ)⌉ ∧ ⌈((21 : ℤ) : ℚ)⌉ ≤ 35)
    ∧ ((∃ msg, App.predict 0 ((6 : ℤ) : ℚ) ((21 : ℤ) : ℚ) =
          Except.error msg) ↔
        max_map_get ⌈((21 : ℤ) : ℚ)⌉ < apply_custom_rounding ((6 : ℤ) : ℚ)) :=
  ⟨by rw [apply_custom_rounding_intCast]; exact ⟨by decide, by decide⟩,
   by rw [Int.ceil_intCast]; exact ⟨by decide, by decide⟩,
   (predict_cap_table_validation 0 ((6 : ℤ) : ℚ) ((21 : ℤ) : ℚ)
      (by rw [apply_custom_rounding_intCast]; exact ⟨by decide, by decide⟩)
      (by rw [Int.ceil_intCast]; exact ⟨by decide, by decide⟩)).1⟩

/-- C4: the program decides the threshold rounding on IEEE-754 doubles, and
the double denoted by the source literal `5.60` is `6305039478318694 / 2^50`
= 5.5999999999999996..., the nearest representable value, lying strictly
below the exact decimal 5.6 (first two conjuncts: within half an ulp,
`2^-51`, from below).  Its fractional part is strictly below 0.6, so at the
value the program actually receives `apply_custom_rounding` returns 5 —
while at the exact rational 5.60, which the running program never sees, the
documented policy yields the claimed 6.  The claim's other evaluations are
insensitive to double rounding: 5.50 is exactly representable and maps
to 5, the double of 5.59 (`6293780479250268 / 2^50`, half an ulp below) maps to 5, the double
of 5.99 (`6744140441987318 / 2^50`, half an ulp above) maps to 6 under the threshold policy
and to 5 under the floor policy. -/
theorem apply_custom_rounding_double_5_60_rounds_down :
    (6305039478318694 : ℚ) / 2 ^ 50 < 5.60
    ∧ 5.60 - (6305039478318694 : ℚ) / 2 ^ 50 < 1 / 2 ^ 51
    ∧ apply_custom_rounding ((6305039478318694 : ℚ) / 2 ^ 50) = 5
    ∧ apply_custom_rounding (5.60 : ℚ) = 6
    ∧ apply_custom_rounding (5.50 : ℚ) = 5
    ∧ (6293780479250268 : ℚ) / 2 ^ 50 < 5.59
    ∧ 5.59 - (6293780479250268 : ℚ) / 2 ^ 50 < 1 / 2 ^ 51
    ∧ apply_custom_rounding ((6293780479250268 : ℚ) / 2 ^ 50) = 5
    ∧ (5.99 : ℚ) < (6744140441987318 : ℚ) / 2 ^ 50
    ∧ (6744140441987318 : ℚ) / 2 ^ 50 - 5.99 < 1 / 2 ^ 51
    ∧ apply_custom_rounding ((6744140441987318 : ℚ) / 2 ^ 50) = 6
    ∧ floor_rounding ((6744140441987318 : ℚ) / 2 ^ 50) = 5 := by
  have h60 : ⌊(6305039478318694 : ℚ) / 2 ^ 50⌋ = 5 := by
    rw [Int.floor_eq_iff]
    norm_num
  have h59 : ⌊(6293780479250268 : ℚ) / 2 ^ 50⌋ = 5 := by
    rw [Int.floor_eq_iff]
    norm_num
  have h99 : ⌊(6744140441987318 : ℚ) / 2 ^ 50⌋ = 5 := by
    rw [Int.floor_eq_iff]
    norm_num
  have h99c : ⌈(6744140441987318 : ℚ) / 2 ^ 50⌉ = 6 := by
    rw [Int.ceil_eq_iff]
    norm_num
  have e60 : apply_custom_rounding ((6305039478318694 : ℚ) / 2 ^ 50) = 5 := by
    simp only [apply_custom_rounding, h60]
    rw [if_neg (by norm_num)]
  have e60x : apply_custom_rounding (5.60 : ℚ) = 6 := by
    norm_num [apply_custom_rounding]
    rw [Int.ceil_eq_iff]
    norm_num
  have e50 : apply_custom_rounding (5.50 : ℚ) = 5 := by
    norm_num [apply_custom_rounding]
  have e59 : apply_custom_rounding ((6293780479250268 : ℚ) / 2 ^ 50) = 5 := by
    simp only [apply_custom_rounding, h59]
    rw [if_neg (by norm_num)]
  have e99 : apply_custom_rounding ((6744140441987318 : ℚ) / 2 ^ 50) = 6 := by
    simp only [apply_custom_rounding, h99]
    rw [if_pos (by norm_num)]
    exact h99c
  have e99f : floor_rounding ((6744140441987318 : ℚ) / 2 ^ 50) = 5 := by
    unfold floor_rounding
    exact h99
  exact ⟨by norm_num, by norm_num, e60, e60x, e50, by norm_num, by norm_num,
    e59, by norm_num, by norm_num, e99, e99f⟩

/-- C9: whenever the end date lies strictly before the start date, the
inclusive duration is at most 0, so `validate_single_entry` takes the
"too short" branch and fails instead of returning a duration. -/
theorem validate_single_entry_rejects_reversed
    (start_date end_date : ℤ) (h : end_date < start_date) :
    validate_single_entry start_date end_date =
      Except.error ("Bleed duration " ++ toString (end_date - start_date + 1)
        ++ " days is too short (Min 3 days).") := by
  simp only [validate_single_entry]
  rw [if_pos (by omega)]

/-- C9 witness: a reversed interval (start 5, end 3) is rejected. -/
theorem validate_single_entry_rejects_reversed_witness :
    (3 : ℤ) < 5 ∧ validate_single_entry 5 3 =
      Except.error ("Bleed duration " ++ toString ((3 : ℤ) - 5 + 1)
        ++ " days is too short (Min 3 days).") :=
  ⟨by decide, validate_single_entry_rejects_reversed 5 3 (by decide)⟩

/-! ## Lemmas about `process_history` -/

/-- `validate_single_entry` succeeds on a valid interval, returning its
inclusive duration. -/
theorem validate_single_entry_ok {e : BleedInterval} (hv : valid_entry e) :
    validate_single_entry e.start e.endDate = Except.ok (duration_of e) := by
  unfold valid_entry duration_of at hv
  simp only [validate_single_entry]
  rw [if_neg (by omega), if_neg (by omega)]
  rfl

/-- The validation loop succeeds on a list of valid intervals, returning
their durations in order. -/
theorem validate_entries_ok :
    ∀ {l : List BleedInterval}, (∀ e ∈ l, valid_entry e) →
      validate_entries l = Except.ok (l.map duration_of)
  | [], _ => rfl
  | e :: rest, hv => by
    have hrest := validate_entries_ok (fun x hx => hv x (List.mem_cons_of_mem e hx))
    simp only [validate_entries]
    rw [validate_single_entry_ok (hv e (List.mem_cons_self e rest)), hrest]
    rfl

/-- The caller's list after `process_history`: unchanged when empty,
sorted by start date otherwise (both variants mutate it the same way). -/
theorem app_process_history_fst (h : List BleedInterval) :
    (App.process_history h).1 = if h.isEmpty then h else sort_history h := by
  simp only [App.process_history]
  by_cases he : h.isEmpty = true
  · rw [if_pos he, if_pos he]
  · rw [if_neg he, if_neg he]
    cases hval : validate_entries (sort_history h) <;> simp [hval]

theorem main_process_history_fst (h : List BleedInterval) :
    (MainSrc.process_history h).1 =
      if h.isEmpty then h else sort_history h := by
  simp only [MainSrc.process_history]
  by_cases he : h.isEmpty = true
  · rw [if_pos he, if_pos he]
  · rw [if_neg he, if_neg he]
    cases hval : validate_entries (sort_history h) <;> simp [hval]

/-- The sorted list's start dates are sorted. -/
theorem sort_history_starts_sorted (l : List BleedInterval) :
    ((sort_history l).map BleedInterval.start).Sorted (· ≤ ·) := by
  have h := @List.sorted_mergeSort BleedInterval
    (fun a b => decide (a.start ≤ b.start))
    (fun a b c hab hbc => by
      simp only [decide_eq_true_eq] at *
      omega)
    (fun a b => by
      simpa using le_total a.start b.start) l
  rw [List.Sorted, List.pairwise_map]
  exact h.imp (fun hab => by simpa using hab)

/-- Permuted histories have identical sorted start-date sequences. -/
theorem sorted_starts_eq {l₁ l₂ : List BleedInterval} (hp : l₁.Perm l₂) :
    (sort_history l₁).map BleedInterval.start =
      (sort_history l₂).map BleedInterval.start :=
  List.eq_of_perm_of_sorted
    (((List.mergeSort_perm l₁ _).map _).trans
      ((hp.map _).trans (((List.mergeSort_perm l₂ _).map _).symm)))
    (sort_history_starts_sorted l₁) (sort_history_starts_sorted l₂)

/-- Permuted histories have identical cycle-gap sequences. -/
theorem compute_cycle_gaps_sort_eq {l₁ l₂ : List BleedInterval}
    (hp : l₁.Perm l₂) :
    compute_cycle_gaps (sort_history l₁) =
      compute_cycle_gaps (sort_history l₂) := by
  unfold compute_cycle_gaps
  rw [sorted_starts_eq hp]

/-- Permuted histories have permuted sorted duration sequences. -/
theorem sort_durations_perm {l₁ l₂ : List BleedInterval} (hp : l₁.Perm l₂) :
    ((sort_history l₁).map duration_of).Perm
      ((sort_history l₂).map duration_of) :=
  ((List.mergeSort_perm l₁ _).map _).trans
    ((hp.map _).trans (((List.mergeSort_perm l₂ _).map _).symm))

theorem perm_eq_of_length_one {α : Type _} :
    ∀ {l₁ l₂ : List α}, l₁.Perm l₂ → l₁.length = 1 → l₁ = l₂
  | [_a], _, hp, _ => List.singleton_perm.mp hp

/-- The value of a successful `process_history` call (`app.py` variant). -/
theorem app_process_history_ok {l : List BleedInterval} (hne : l ≠ [])
    (hv : ∀ e ∈ sort_history l, valid_entry e) :
    App.process_history l = (sort_history l, Except.ok (some
      { bleed_avg :=
          if ((sort_history l).map duration_of).length = 1
          then ((sort_history l).map duration_of).headI
          else apply_custom_rounding
            ((((sort_history l).map duration_of).sum : ℚ) /
              (((sort_history l).map duration_of).length : ℚ))
        cycle_avg :=
          if (compute_cycle_gaps (sort_history l)).isEmpty then 28
          else ⌈(((compute_cycle_gaps (sort_history l)).sum : ℚ) /
            ((compute_cycle_gaps (sort_history l)).length : ℚ))⌉
        total_cycles := (sort_history l).length
        cycle_gaps := compute_cycle_gaps (sort_history l) })) := by
  simp only [App.process_history]
  rw [if_neg (by simpa using hne), validate_entries_ok hv]

/-- The value of a successful `process_history` call (`main.py` variant). -/
theorem main_process_history_ok {l : List BleedInterval} (hne : l ≠ [])
    (hv : ∀ e ∈ sort_history l, valid_entry e) :
    MainSrc.process_history l = (sort_history l, Except.ok (some
      { bleed_avg :=
          if ((sort_history l).map duration_of).length = 1
          then ((sort_history l).map duration_of).headI
          else ⌊(((sort_history l).map duration_of).sum : ℚ) /
              (((sort_history l).map duration_of).length : ℚ)⌋
        cycle_avg :=
          if (compute_cycle_gaps (sort_history l)).isEmpty then 28
          else ⌈(((compute_cycle_gaps (sort_history l)).sum : ℚ) /
            ((compute_cycle_gaps (sort_history l)).length : ℚ))⌉
        total_cycles := (sort_history l).length
        cycle_gaps := compute_cycle_gaps (sort_history l) })) := by
  simp only [MainSrc.process_history]
  rw [if_neg (by simpa using hne), validate_entries_ok hv]

/-- Under a permutation of a fully valid history, the `app.py`
`process_history` returns the same value. -/
theorem app_process_history_snd_perm_eq {l₁ l₂ : List BleedInterval}
    (hp : l₁.Perm l₂) (hv : ∀ e ∈ l₁, valid_entry e) :
    (App.process_history l₁).2 = (App.process_history l₂).2 := by
  rcases eq_or_ne l₁ [] with rfl | hne
  · obtain rfl := List.perm_nil.mp hp.symm
    rfl
  · have hne₂ : l₂ ≠ [] := fun h2 => hne (List.perm_nil.mp (h2 ▸ hp))
    have hv₁ : ∀ e ∈ sort_history l₁, valid_entry e :=
      fun e he => hv e (List.mem_mergeSort.mp he)
    have hv₂ : ∀ e ∈ sort_history l₂, valid_entry e :=
      fun e he => hv e (hp.mem_iff.mpr (List.mem_mergeSort.mp he))
    rw [app_process_history_ok hne hv₁, app_process_history_ok hne₂ hv₂]
    have hd := sort_durations_perm hp
    have hg := compute_cycle_gaps_sort_eq hp
    have hn : (sort_history l₁).length = (sort_history l₂).length :=
      ((List.mergeSort_perm l₁ _).trans
        (hp.trans (List.mergeSort_perm l₂ _).symm)).length_eq
    simp only [Except.ok.injEq, Option.some.injEq, CycleAverageResult.mk.injEq]
    refine ⟨?_, by rw [hg], hn, hg⟩
    by_cases h1 : ((sort_history l₁).map duration_of).length = 1
    · rw [perm_eq_of_length_one hd h1]
    · rw [if_neg h1, if_neg (by rw [← hd.length_eq]; exact h1),
        hd.sum_eq, hd.length_eq]

/-- Under a permutation of a fully valid history, the `main.py`
`process_history` returns the same value. -/
theorem main_process_history_snd_perm_eq {l₁ l₂ : List BleedInterval}
    (hp : l₁.Perm l₂) (hv : ∀ e ∈ l₁, valid_entry e) :
    (MainSrc.process_history l₁).2 = (MainSrc.process_history l₂).2 := by
  rcases eq_or_ne l₁ [] with rfl | hne
  · obtain rfl := List.perm_nil.mp hp.symm
    rfl
  · have hne₂ : l₂ ≠ [] := fun h2 => hne (List.perm_nil.mp (h2 ▸ hp))
    have hv₁ : ∀ e ∈ sort_history l₁, valid_entry e :=
      fun e he => hv e (List.mem_mergeSort.mp he)
    have hv₂ : ∀ e ∈ sort_history l₂, valid_entry e :=
      fun e he => hv e (hp.mem_iff.mpr (List.mem_mergeSort.mp he))
    rw [main_process_history_ok hne hv₁, main_process_history_ok hne₂ hv₂]
    have hd := sort_durations_perm hp
    have hg := compute_cycle_gaps_sort_eq hp
    have hn : (sort_history l₁).length = (sort_history l₂).length :=
      ((List.mergeSort_perm l₁ _).trans
        (hp.trans (List.mergeSort_perm l₂ _).symm)).length_eq
    simp only [Except.ok.injEq, Option.some.injEq, CycleAverageResult.mk.injEq]
    refine ⟨?_, by rw [hg], hn, hg⟩
    by_cases h1 : ((sort_history l₁).map duration_of).length = 1
    · rw [perm_eq_of_length_one hd h1]
    · rw [if_neg h1, if_neg (by rw [← hd.length_eq]; exact h1),
        hd.sum_eq, hd.length_eq]

/-- C8: on a history whose entries all pass validation, `process_history`
is order-independent — any permutation of the collection produces the same
returned value (averages record, including the `cycle_gaps` sequence) as
the collection pre-sorted by start date, in both deployment variants. -/
theorem process_history_order_independent
    (h h' : List BleedInterval) (hperm : h.Perm h')
    (hvalid : ∀ e ∈ h, valid_entry e) :
    (App.process_history h').2 = (App.process_history (sort_history h)).2
    ∧ (MainSrc.process_history h').2 =
        (MainSrc.process_history (sort_history h)).2 := by
  have hp : h'.Perm (sort_history h) :=
    hperm.symm.trans (List.mergeSort_perm h _).symm
  have hv' : ∀ e ∈ h', valid_entry e :=
    fun e he => hvalid e (hperm.mem_iff.mpr he)
  exact ⟨app_process_history_snd_perm_eq hp hv',
    main_process_history_snd_perm_eq hp hv'⟩

/-- C8 witness: a two-interval history given in reversed temporal order
produces the same result as its pre-sorted form. -/
theorem process_history_order_independent_witness :
    ([⟨0, 3⟩, ⟨30, 33⟩] : List BleedInterval).Perm [⟨30, 33⟩, ⟨0, 3⟩]
    ∧ (∀ e ∈ ([⟨0, 3⟩, ⟨30, 33⟩] : List BleedInterval), valid_entry e)
    ∧ (App.process_history [⟨30, 33⟩, ⟨0, 3⟩]).2 =
        (App.process_history (sort_history [⟨0, 3⟩, ⟨30, 33⟩])).2
    ∧ (MainSrc.process_history [⟨30, 33⟩, ⟨0, 3⟩]).2 =
        (MainSrc.process_history (sort_history [⟨0, 3⟩, ⟨30, 33⟩])).2 :=
  ⟨List.Perm.swap (⟨30, 33⟩ : BleedInterval) ⟨0, 3⟩ [],
   by decide,
   (process_history_order_independent [⟨0, 3⟩, ⟨30, 33⟩] [⟨30, 33⟩, ⟨0, 3⟩]
      (List.Perm.swap (⟨30, 33⟩ : BleedInterval) ⟨0, 3⟩ []) (by decide)).1,
   (process_history_order_independent [⟨0, 3⟩, ⟨30, 33⟩] [⟨30, 33⟩, ⟨0, 3⟩]
      (List.Perm.swap (⟨30, 33⟩ : BleedInterval) ⟨0, 3⟩ []) (by decide)).2⟩

/-- C5 counterexample: `process_history` does not leave the caller's
collection in its original order — on the (valid, non-empty) history
`[{start 10, end 13}, {start 0, end 3}]` the collection differs after the
call. -/
theorem process_history_reorders_input :
    (App.process_history [⟨10, 13⟩, ⟨0, 3⟩]).1 ≠
      ([⟨10, 13⟩, ⟨0, 3⟩] : List BleedInterval) := by
  rw [app_process_history_fst]
  simp [sort_history, List.mergeSort, List.merge]

/-- C5 (amended): `process_history` mutates the caller's collection by
sorting it in place by start date (identically in both variants): the
post-call collection is a permutation of the input — no element is added,
dropped or otherwise altered — and it equals the input exactly as passed
whenever the input was already sorted by start date. -/
theorem process_history_sorts_in_place (h : List BleedInterval) :
    (App.process_history h).1.Perm h
    ∧ (MainSrc.process_history h).1 = (App.process_history h).1
    ∧ (h.Pairwise (fun a b => a.start ≤ b.start) →
        (App.process_history h).1 = h) := by
  rw [app_process_history_fst, main_process_history_fst]
  refine ⟨?_, rfl, ?_⟩
  · split_ifs with he
    · exact List.Perm.refl h
    · exact List.mergeSort_perm h _
  · intro hsorted
    split_ifs with he
    · rfl
    · exact List.mergeSort_of_sorted
        (hsorted.imp (fun hab => decide_eq_true hab))

/-- C5 witness: on an already-sorted valid history the post-call
collection is a permutation of the input, and indeed equal to it. -/
theorem process_history_sorts_in_place_witness :
    (App.process_history [⟨0, 3⟩, ⟨10, 13⟩]).1.Perm
      ([⟨0, 3⟩, ⟨10, 13⟩] : List BleedInterval)
    ∧ (App.process_history [⟨0, 3⟩, ⟨10, 13⟩]).1 =
        ([⟨0, 3⟩, ⟨10, 13⟩] : List BleedInterval) :=
  ⟨(process_history_sorts_in_place [⟨0, 3⟩, ⟨10, 13⟩]).1,
   (process_history_sorts_in_place [⟨0, 3⟩, ⟨10, 13⟩]).2.2 (by decide)⟩

end Cycle
